import Mathlib

/-!
Shallow embedding of `mocker/proto_mocks.py` from the `cryptomock` repository.

Modelling conventions:
* Python floats are modelled as `ℚ` (the fill-plan arithmetic is exact at the
  rational inputs the claims quantify over).
* Python dictionaries keyed by strings are modelled as functions
  `String → ℚ` (balance maps) or `String → Option _` (the account map).
* Fallible Python code is modelled with `Except PyErr`; `PyErr` mirrors the
  CPython exception that the corresponding source line would raise.
* `Exchange.__init__` merely *annotates* `active_accounts`, `coins` and `name`
  (a bare annotation creates no attribute), and `assets` is never defined at
  all, so those attributes are modelled as `Option` fields that start out
  `none`; reading a `none` field yields `AttributeError`, as in CPython.
* The names `ceil` and `random` are not imported by `proto_mocks.py`; the
  frozen claims themselves read them as `math.ceil` and `random.random`
  (an oracle input `r ∈ [0,1)`), and this embedding follows that reading.
  Likewise `super().__init__()` in `Order.__init__`/`Trade.__init__` is
  treated as a no-op (every `Deal` attribute is immediately reassigned).
* Timer-driven behaviour (`threading.Timer`) is modelled by explicit fire
  times: a timer scheduled with delay `d` fires in a run iff it has not been
  cancelled before `d`.  Mutations preceding a raised exception are not
  represented (no claim inspects them).
-/

namespace CryptoMock

/-- CPython exceptions raised by the modelled code paths. -/
inductive PyErr where
  | attributeError (attr : String)
  | nameError (n : String)
  | indexError
  | keyError (k : String)
  | valueError
  | zeroDivisionError
  deriving Repr, DecidableEq

/-- Functional update of a string-keyed map, used for Python dict item assignment. -/
def updateFn (f : String → ℚ) (k : String) (v : ℚ) : String → ℚ :=
  fun x => if x = k then v else f x

/-- Python list indexing `l[i]` on a price list: raises `IndexError` outside
`[-len, len)`, and negative indices count from the end. -/
def pyIndex (l : List ℚ) (i : Int) : Except PyErr ℚ :=
  if 0 ≤ i ∧ i < l.length then .ok (l.getD i.toNat 0)
  else if -(l.length : Int) ≤ i ∧ i < 0 then .ok (l.getD (i + l.length).toNat 0)
  else .error .indexError

/-- Splitting a character list at every occurrence of the separator `c`,
with the semantics of Python's `str.split` for a single-character separator
(the result always has at least one part). -/
def splitOnChar (c : Char) : List Char → List (List Char)
  | [] => [[]]
  | x :: xs =>
    let r := splitOnChar c xs
    if x = c then [] :: r
    else
      match r with
      | [] => [[x]]
      | y :: ys => (x :: y) :: ys

/-- Python `s.split('_')` for a single-character separator. -/
def pySplit (s : String) (c : Char) : List String :=
  (splitOnChar c s.data).map String.mk

/-- Python tuple unpacking `a, b = s.split('_')`: `ValueError` unless the split
yields exactly two parts. -/
def pySplitUnpack2 (s : String) : Except PyErr (String × String) :=
  match pySplit s '_' with
  | [a, b] => .ok (a, b)
  | _ => .error .valueError

/-- A trigger dictionary `{'buys': _, 'sells': _}` as read by
`Strategy.check_conditions`. -/
structure Trigger where
  buys : Int
  sells : Int
  deriving Repr, DecidableEq

/-- The attribute state of a `Strategy` object as read and written by
`check_conditions`, `_check_success`, `_increment_counter` and `reset_counter`.
`tickerValues` stands for `self.ticker['ticker']` (the JSON-decoded price
list); `trigger`/`stop_trigger` are the decoded trigger dictionaries.
`status` is the plain string that the source assigns over the initial
`StrategyStatus` object. -/
structure Strategy where
  name : String
  description : String
  symbol : String
  status : String
  buys : Int
  sells : Int
  tickerValues : List ℚ
  trigger : Trigger
  stop_trigger : Trigger
  is_infinite : Bool
  is_triggered : Bool
  counter : Int
  deriving Repr, DecidableEq

/-- `Strategy.reset_counter`. -/
def Strategy.reset_counter (s : Strategy) : Strategy :=
  { s with counter := 0 }

/-- `Strategy._increment_counter`. -/
def Strategy.increment_counter (s : Strategy) : Strategy :=
  if s.counter < (s.tickerValues.length : Int) - 1 then
    { s with counter := s.counter + 1 }
  else if s.counter = (s.tickerValues.length : Int) - 1 ∧ s.is_infinite then
    s.reset_counter
  else
    s

/-- `Strategy._check_success`. -/
def Strategy.check_success (s : Strategy) : Strategy :=
  if s.buys = s.stop_trigger.buys ∧ s.sells = s.stop_trigger.sells then
    { s with is_triggered := false, status := "SUCCEEDED" }
  else
    { s with is_triggered := false, status := "FAILED" }

/-- `Strategy.check_conditions`.  The first `if` block may set `is_triggered`,
and the second block then reads the updated value, as in the source. -/
def Strategy.check_conditions (s : Strategy) : Strategy :=
  let s1 :=
    if s.is_infinite ∧ ¬ s.is_triggered then
      { s with is_triggered := true, status := "INFINITE_LOOP" }
    else s
  if s1.is_triggered then
    if s1.counter = (s1.tickerValues.length : Int) - 1 then
      if ¬ s1.is_infinite then s1.check_success
      else s1.increment_counter
    else s1.increment_counter
  else
    if s1.counter = 0 then
      if s1.buys = s1.trigger.buys ∧ s1.sells = s1.trigger.sells then
        { s1 with is_triggered := true, status := "PRICE_CHANGE_TRIGGERED" }
      else s1
    else s1

/-- The attribute state of a `Ticker` object (threading fields omitted). -/
structure Ticker where
  values : List ℚ
  is_infinite : Bool
  is_triggered : Bool
  counter : Int
  deriving Repr, DecidableEq

/-- `Ticker.reset_counter`. -/
def Ticker.reset_counter (tk : Ticker) : Ticker :=
  { tk with counter := 0 }

/-- One pass of the `while True` body of `Ticker._increment_counter`.
The wrap-around branch of the source evaluates the bare expression
`self.reset_counter` without calling it, so it changes no state; both arms
of the conditional therefore return the incremented ticker. -/
def Ticker.increment_step (tk : Ticker) : Ticker :=
  let tk1 := { tk with counter := tk.counter + 1 }
  if tk1.counter = (tk1.values.length : Int) - 1 ∧ tk1.is_infinite then tk1
  else tk1

/-- A `Trade` object.  All trades of an order are created inside
`Order.__init__` (only their handling is delayed), so `price` is snapshotted
from the same strategy scan as the order price. -/
structure Trade where
  order_id : String
  amount : ℚ
  base_asset : String
  quote_asset : String
  trade_type : String
  price : ℚ
  deriving Repr, DecidableEq

/-- The attribute state of an `Order` object (uuid and timer handles omitted;
the timer schedule is recovered by `Order.fireTime` and
`Order.close_timer_delay`). -/
structure Order where
  api_key : String
  amount : ℚ
  base_asset : String
  quote_asset : String
  order_type : String
  status : String
  trades : List Trade
  symbol : String
  price : ℚ
  order_fill_delay : ℚ
  number_of_trades : Nat
  fill_percent : ℚ
  trade_amount : ℚ
  trade_delay_step : ℚ
  deriving Repr, DecidableEq

/-- `Order._compute_fill_properties` with the two `random()` draws as oracle
inputs: `number_of_trades = int(ceil(r1 * 5))`,
`fill_percent = 1 - r2 * 0.03`. -/
def compute_fill_properties (r1 r2 : ℚ) : Nat × ℚ :=
  ((⌈r1 * 5⌉).toNat, 1 - r2 * (3 / 100))

/-- `Order.__init__` (together with `Order._get_original_price`): scans
`context` for the first strategy whose symbol matches (`IndexError` if none),
reads the price at the strategy's current cursor, computes the fill plan, and
records the derived trade amount and delay step.  When
`number_of_trades = 0` (the `r1 = 0` draw) the computation of
`self.trade_amount` divides by zero, as in CPython. -/
def Order.build (api_key : String) (amount : ℚ) (base_asset quote_asset : String)
    (order_type : String) (context : List Strategy) (random_fill : Bool)
    (r1 r2 : ℚ) : Except PyErr Order := do
  let symbol := base_asset ++ "_" ++ quote_asset
  let strat ← match (context.filter (fun st => st.symbol = symbol)).head? with
    | none => Except.error .indexError
    | some st => Except.ok st
  let price ← pyIndex strat.tickerValues strat.counter
  let nf := if random_fill then compute_fill_properties r1 r2 else (1, 1)
  if nf.1 = 0 then Except.error .zeroDivisionError
  else
    Except.ok
      { api_key := api_key
        amount := amount
        base_asset := base_asset
        quote_asset := quote_asset
        order_type := order_type
        status := "OPEN"
        trades := []
        symbol := symbol
        price := price
        order_fill_delay := 15
        number_of_trades := nf.1
        fill_percent := nf.2
        trade_amount := amount * nf.2 / (nf.1 : ℚ)
        trade_delay_step := 15 / (nf.1 : ℚ) }

/-- Fire time of the `i`-th trade timer:
`current_trade_delay = self.trade_delay_step + i * self.trade_delay_step`. -/
def Order.fireTime (o : Order) (i : Nat) : ℚ :=
  o.trade_delay_step + (i : ℚ) * o.trade_delay_step

/-- The `Trade` object created in iteration `i` of the `Order.__init__` loop
(all iterations create trades with the same amount and price). -/
def Order.scheduledTrade (o : Order) : Trade :=
  { order_id := ""
    amount := o.trade_amount
    base_asset := o.base_asset
    quote_asset := o.quote_asset
    trade_type := o.order_type
    price := o.price }

/-- The delays of the timers stored in `self.trade_timers`. -/
def Order.trade_timers (o : Order) : List ℚ :=
  (List.range o.number_of_trades).map o.fireTime

/-- The delay of the `handle_order_close` timer that `Exchange.create_order`
schedules: `order.order_fill_delay + 1`.  This timer is a local variable of
`create_order` and is never appended to `order.trade_timers`. -/
def Order.close_timer_delay (o : Order) : ℚ :=
  o.order_fill_delay + 1

/-- `Order._check_close`. -/
def Order.check_close (o : Order) : Order :=
  if o.trades.length = o.number_of_trades then { o with status := "FILLED" }
  else o

/-- `Order._handle_trade`. -/
def Order.handle_trade (o : Order) (trade : Trade) : Order :=
  Order.check_close { o with trades := o.trades ++ [trade] }

/-- The state mutation performed by `Order.cancel` (`timer.cancel()` on each
trade timer is modelled in `Order.stateAt` by suppressing unfired trades). -/
def Order.cancelled (o : Order) : Order :=
  { o with status := "CANCELED" }

/-- Whether a timer with delay `d` still fires when `Order.cancel` runs at
time `c`: `cancel` cancels exactly the timers in `self.trade_timers`, and a
cancelled timer fires only if its delay elapsed before the cancellation. -/
def timerSurvivesCancel (tradeTimers : List ℚ) (d : ℚ) (c : Option ℚ) : Bool :=
  match c with
  | none => true
  | some ct => if d ∈ tradeTimers then decide (d < ct) else true

/-- The indices of the trade timers that have fired by time `t` in the run
where `Order.cancel` runs at time `c` (`c = none`: never cancelled). -/
def Order.firedIndices (o : Order) (c : Option ℚ) (t : ℚ) : List Nat :=
  (List.range o.number_of_trades).filter (fun i =>
    decide (o.fireTime i ≤ t) && timerSurvivesCancel o.trade_timers (o.fireTime i) c)

/-- Applying `k` trade fires to an order (each fire runs `_handle_trade` on
the trade object created for that timer). -/
def Order.applyFires (o : Order) : Nat → Order
  | 0 => o
  | k + 1 => (o.applyFires k).handle_trade (o.applyFires k).scheduledTrade

/-- The order's state at time `t` in the run where `Order.cancel` runs at
time `c`: every trade timer that fired by `t` has appended its trade (all
fired timers precede the cancellation), and the cancellation, once reached,
has set the status to `CANCELED`. -/
def Order.stateAt (o : Order) (c : Option ℚ) (t : ℚ) : Order :=
  let afterTrades := o.applyFires (o.firedIndices c t).length
  match c with
  | some ct => if ct ≤ t then afterTrades.cancelled else afterTrades
  | none => afterTrades

/-- The `'balance'` entry of an account's data dictionary.  The two inner
dictionaries are modelled as total maps; `accept_account` seeds every asset of
`self.assets`, and the order claims quantify over assets present in the
ledger. -/
structure Balance where
  available : String → ℚ
  frozen : String → ℚ

/-- An account-data dictionary (its only key is `'balance'`). -/
structure AccountData where
  balance : Balance

/-- Functional update of the account map, used for
`self.active_accounts.update({api_key: account_data})` and for writing back a
mutated balance. -/
def updateAcct (m : String → Option AccountData) (k : String) (v : AccountData) :
    String → Option AccountData :=
  fun x => if x = k then some v else m x

/-- The attribute state of the `Exchange` object.  `active_accounts`, `coins`
and `name` are only *annotated* in `__init__` (no attribute is created), and
`assets` is never defined anywhere in the source, so all four are `Option`
fields; reading them while `none` raises `AttributeError`. -/
structure Exchange where
  initial_balance_value : ℚ
  strategy_check_timer_value : Int
  active_accounts : Option (String → Option AccountData)
  coins : Option (List Strategy)
  name : Option String
  assets : Option (List String)
  orders : List Order

/-- The state `Exchange.__init__` leaves behind. -/
def Exchange.freshInit : Exchange :=
  { initial_balance_value := 1
    strategy_check_timer_value := 10
    active_accounts := none
    coins := none
    name := none
    assets := none
    orders := [] }

/-- `Exchange.accept_account`.  The membership test reads
`self.active_accounts` first; the seeding loop then reads `self.assets`. -/
def Exchange.accept_account (ex : Exchange) (api_key : String) :
    Except PyErr Exchange :=
  match ex.active_accounts with
  | none => .error (.attributeError "active_accounts")
  | some accounts =>
    if (accounts api_key).isSome then .ok ex
    else
      match ex.assets with
      | none => .error (.attributeError "assets")
      | some assets =>
        let bal : Balance :=
          { available := fun coin =>
              if coin ∈ assets then ex.initial_balance_value else 0
            frozen := fun _ => 0 }
        .ok { ex with
              active_accounts := some (updateAcct accounts api_key ⟨bal⟩) }

/-- `Exchange.ingest_strategy`: unpacks the symbol, logs (reading
`self.name`), appends to `self.coins`, and sets the strategy's status to
`READY`.  The source appends the object and then mutates it, so the stored
strategy carries the `READY` status.  Scheduling of the periodic
`check_conditions` thread is the iteration of `Strategy.check_conditions`. -/
def Exchange.ingest_strategy (ex : Exchange) (strategy : Strategy) :
    Except PyErr Exchange := do
  let _ ← pySplitUnpack2 strategy.symbol
  match ex.name with
  | none => Except.error (.attributeError "name")
  | some _ =>
    match ex.coins with
    | none => Except.error (.attributeError "coins")
    | some cs =>
      Except.ok { ex with coins := some (cs ++ [{ strategy with status := "READY" }]) }

/-- `Exchange.create_order`: reads `self.coins` (the `Order` constructor
argument), builds the order, appends it to `self.orders`, then mutates the
account balance found in `self.active_accounts[api_key]` according to the
order type, with no check that the available balance suffices.  Finally the
source schedules `self._handle_order_close` on a timer with delay
`order.order_fill_delay + 1` (see `Order.close_timer_delay`). -/
def Exchange.create_order (ex : Exchange) (api_key base_asset quote_asset : String)
    (amount : ℚ) (order_type : String) (r1 r2 : ℚ) : Except PyErr Exchange := do
  let coins ← match ex.coins with
    | none => Except.error (.attributeError "coins")
    | some cs => Except.ok cs
  let order ← Order.build api_key amount base_asset quote_asset order_type coins true r1 r2
  let orders1 := ex.orders ++ [order]
  let accounts ← match ex.active_accounts with
    | none => Except.error (.attributeError "active_accounts")
    | some a => Except.ok a
  let acct ← match accounts api_key with
    | none => Except.error (.keyError api_key)
    | some a => Except.ok a
  let bal := acct.balance
  let bal1 : Balance :=
    if order_type = "BUY" then
      { available := updateFn bal.available quote_asset
          (bal.available quote_asset - order.price * order.amount)
        frozen := updateFn bal.frozen quote_asset
          (bal.frozen quote_asset + order.price * order.amount) }
    else if order_type = "SELL" then
      { available := updateFn bal.available base_asset
          (bal.available base_asset - order.amount)
        frozen := updateFn bal.frozen base_asset
          (bal.frozen base_asset + order.amount) }
    else bal
  Except.ok { ex with
              orders := orders1
              active_accounts := some (updateAcct accounts api_key ⟨bal1⟩) }

/-- `Exchange._handle_order_close`.  The body first scans `self.coins` for the
strategy matching `order.symbol` (taking element `[0]`), computes the traded
and original totals from `order.trades`, and then evaluates
`self.active_accounts[api_key]`: the attribute `self.active_accounts` is read
first, after which the bare name `api_key` is resolved — it is bound neither
in the method (whose only parameter is `order`) nor at module level, so
CPython raises `NameError` there, before any balance or counter mutation.
The remaining statements of the body are unreachable. -/
def Exchange.handle_order_close (ex : Exchange) (order : Order) :
    Except PyErr Exchange := do
  let coins ← match ex.coins with
    | none => Except.error (.attributeError "coins")
    | some cs => Except.ok cs
  let _strategy ← match (coins.filter (fun st => st.symbol = order.symbol)).head? with
    | none => Except.error .indexError
    | some st => Except.ok st
  let _traded_total_amount := (order.trades.map (fun t => t.amount)).sum
  let _traded_total := (order.trades.map (fun t => t.amount * t.price)).sum
  let _original_total_amount := order.amount
  let _original_total := order.amount * order.price
  let _accounts ← match ex.active_accounts with
    | none => Except.error (.attributeError "active_accounts")
    | some a => Except.ok a
  Except.error (.nameError "api_key")

/-! Concrete fixtures used by witnesses and counterexamples. -/

/-- A concrete ingested strategy for the symbol `BTC_USD` with a one-point
ticker. -/
def st0 : Strategy :=
  { name := "btc-usd"
    description := ""
    symbol := "BTC_USD"
    status := "READY"
    buys := 0
    sells := 0
    tickerValues := [100]
    trigger := ⟨1, 0⟩
    stop_trigger := ⟨1, 1⟩
    is_infinite := false
    is_triggered := false
    counter := 0 }

/-- A concrete account with all-zero balances. -/
def acct1 : AccountData :=
  ⟨⟨fun _ => 0, fun _ => 0⟩⟩

/-- A concrete account map holding one registered key `"k"`. -/
def acctMap1 : String → Option AccountData :=
  fun k => if k = "k" then some acct1 else none

/-- A concrete exchange whose unassigned attributes have been populated
externally: one ingested strategy and one registered account. -/
def exC1 : Exchange :=
  { Exchange.freshInit with
    coins := some [st0]
    active_accounts := some acctMap1
    name := some "mock" }

/-- The order produced by
`Order.build "k" 1 "BTC" "USD" "BUY" [st0] true (1/10) 0`
(one trade, full fill). -/
def ord3 : Order :=
  { api_key := "k"
    amount := 1
    base_asset := "BTC"
    quote_asset := "USD"
    order_type := "BUY"
    status := "OPEN"
    trades := []
    symbol := "BTC_USD"
    price := 100
    order_fill_delay := 15
    number_of_trades := 1
    fill_percent := 1
    trade_amount := 1
    trade_delay_step := 15 }

/-- A concrete fully filled BUY order (the one trade of `ord3` has fired). -/
def ordC1 : Order :=
  { ord3 with status := "FILLED", trades := [ord3.scheduledTrade] }

/-- A concrete triggered, non-infinite strategy sitting at the last ticker
index with counters matching its stop trigger. -/
def st4 : Strategy :=
  { st0 with is_triggered := true, buys := 1, sells := 1 }

/-- A concrete ticker state satisfying the cursor invariant. -/
def tk9 : Ticker :=
  { values := [1], is_infinite := false, is_triggered := false, counter := 0 }

/-! Helper lemmas. -/

/-- `_handle_trade` appends the trade and flips the status to `FILLED`
exactly when the appended list reaches `number_of_trades`; no other field
changes. -/
theorem Order.handle_trade_eq (o : Order) (tr : Trade) :
    o.handle_trade tr =
      { o with
        trades := o.trades ++ [tr]
        status :=
          if o.trades.length + 1 = o.number_of_trades then "FILLED"
          else o.status } := by
  simp only [Order.handle_trade, Order.check_close, List.length_append,
    List.length_singleton]
  split <;> rfl

theorem Order.handle_trade_scheduledTrade (o : Order) (tr : Trade) :
    (o.handle_trade tr).scheduledTrade = o.scheduledTrade := by
  rw [Order.handle_trade_eq]
  split <;> rfl

theorem Order.handle_trade_number_of_trades (o : Order) (tr : Trade) :
    (o.handle_trade tr).number_of_trades = o.number_of_trades := by
  rw [Order.handle_trade_eq]

theorem Order.applyFires_scheduledTrade (o : Order) (k : Nat) :
    (o.applyFires k).scheduledTrade = o.scheduledTrade := by
  induction k with
  | zero => rfl
  | succ k ih =>
    simp [Order.applyFires, Order.handle_trade_scheduledTrade, ih]

theorem Order.applyFires_number_of_trades (o : Order) (k : Nat) :
    (o.applyFires k).number_of_trades = o.number_of_trades := by
  induction k with
  | zero => rfl
  | succ k ih =>
    simp [Order.applyFires, Order.handle_trade_number_of_trades, ih]

theorem Order.applyFires_trades (o : Order) (k : Nat) :
    (o.applyFires k).trades = o.trades ++ List.replicate k o.scheduledTrade := by
  induction k with
  | zero => simp [Order.applyFires]
  | succ k ih =>
    rw [Order.applyFires, Order.handle_trade_eq, Order.applyFires_scheduledTrade]
    simp only [ih, List.replicate_succ']
    rw [List.append_assoc]

theorem Order.applyFires_status (o : Order) (k : Nat) (h0 : o.trades = [])
    (hs : o.status = "OPEN") (hn : o.number_of_trades ≠ 0)
    (hk : k ≤ o.number_of_trades) :
    (o.applyFires k).status =
      if k = o.number_of_trades then "FILLED" else "OPEN" := by
  induction k with
  | zero =>
    simp only [Order.applyFires]
    rw [if_neg (by omega)]
    exact hs
  | succ k ih =>
    rw [Order.applyFires, Order.handle_trade_eq, Order.applyFires_trades,
      Order.applyFires_number_of_trades]
    have hk' : k ≤ o.number_of_trades := Nat.le_of_succ_le hk
    rw [ih hk']
    simp only [h0, List.nil_append, List.length_replicate]
    by_cases hke : k + 1 = o.number_of_trades
    · rw [if_pos hke, if_pos hke]
    · rw [if_neg hke, if_neg hke, if_neg (by omega)]

theorem Order.firedIndices_length_le (o : Order) (c : Option ℚ) (t : ℚ) :
    (o.firedIndices c t).length ≤ o.number_of_trades := by
  have h := List.length_filter_le
    (fun i => decide (o.fireTime i ≤ t) &&
      timerSurvivesCancel o.trade_timers (o.fireTime i) c)
    (List.range o.number_of_trades)
  simpa [Order.firedIndices] using h

theorem Order.cancelled_trades (o : Order) : (o.cancelled).trades = o.trades := rfl

theorem Order.stateAt_trades (o : Order) (c : Option ℚ) (t : ℚ) :
    (o.stateAt c t).trades =
      o.trades ++ List.replicate (o.firedIndices c t).length o.scheduledTrade := by
  unfold Order.stateAt
  cases c with
  | none => exact Order.applyFires_trades o _
  | some ct =>
    by_cases h : ct ≤ t
    · simp only [if_pos h, Order.cancelled_trades]
      exact Order.applyFires_trades o _
    · simp only [if_neg h]
      exact Order.applyFires_trades o _

theorem Order.stateAt_status_cancelled (o : Order) (ct t : ℚ) (h : ct ≤ t) :
    (o.stateAt (some ct) t).status = "CANCELED" := by
  unfold Order.stateAt
  simp only [if_pos h]
  rfl

theorem Order.stateAt_status_of_filled (o : Order) (c : Option ℚ) (t : ℚ)
    (h0 : o.trades = []) (hs : o.status = "OPEN") (hn : o.number_of_trades ≠ 0)
    (hf : (o.stateAt c t).status = "FILLED") :
    (o.firedIndices c t).length = o.number_of_trades := by
  have hk := Order.firedIndices_length_le o c t
  have hst := Order.applyFires_status o (o.firedIndices c t).length h0 hs hn hk
  cases c with
  | none =>
    simp only [Order.stateAt] at hf
    rw [hst] at hf
    by_contra hne
    rw [if_neg hne] at hf
    exact absurd hf (by decide)
  | some ct =>
    simp only [Order.stateAt] at hf
    by_cases h : ct ≤ t
    · rw [if_pos h] at hf
      have hc : (Order.cancelled (o.applyFires
          (o.firedIndices (some ct) t).length)).status = "CANCELED" := rfl
      rw [hc] at hf
      exact absurd hf (by decide)
    · rw [if_neg h, hst] at hf
      by_contra hne
      rw [if_neg hne] at hf
      exact absurd hf (by decide)

/-- Unpacking a successful `Order.build` with random fill: the field values
recorded by `Order.__init__`. -/
theorem Order.build_fields {k : String} {a : ℚ} {b q ot : String}
    {ctx : List Strategy} {r1 r2 : ℚ} {o : Order}
    (h : Order.build k a b q ot ctx true r1 r2 = .ok o) :
    o.trades = [] ∧ o.status = "OPEN" ∧ o.amount = a ∧
    o.number_of_trades = (⌈r1 * 5⌉).toNat ∧ o.number_of_trades ≠ 0 ∧
    o.fill_percent = 1 - r2 * (3 / 100) ∧
    o.trade_amount = a * o.fill_percent / (o.number_of_trades : ℚ) ∧
    o.trade_delay_step = 15 / (o.number_of_trades : ℚ) ∧
    o.order_fill_delay = 15 := by
  simp only [Order.build, bind, Except.bind, if_true, compute_fill_properties] at h
  split at h
  · exact absurd h (by simp)
  · split at h
    · exact absurd h (by simp)
    · split at h
      · exact absurd h (by simp)
      · next hne =>
        injection h with h
        subst h
        refine ⟨rfl, rfl, rfl, rfl, hne, rfl, rfl, rfl, rfl⟩

/-- The fill plan at oracle draws `r1 ∈ (0,1)`, `r2 ∈ [0,1)`: one to five
trades and a fill percentage in `(0.97, 1]`. -/
theorem compute_fill_properties_bounds (r1 r2 : ℚ) (h1 : 0 < r1) (h2 : r1 ≤ 1)
    (h3 : 0 ≤ r2) (h4 : r2 < 1) :
    (1 ≤ (compute_fill_properties r1 r2).1 ∧ (compute_fill_properties r1 r2).1 ≤ 5) ∧
    (97 / 100 < (compute_fill_properties r1 r2).2 ∧
      (compute_fill_properties r1 r2).2 ≤ 1) := by
  unfold compute_fill_properties
  constructor
  · have hc1 : 0 < ⌈r1 * 5⌉ := Int.lt_ceil.mpr (by push_cast; nlinarith)
    have hc2 : ⌈r1 * 5⌉ ≤ 5 := Int.ceil_le.mpr (by push_cast; nlinarith)
    omega
  · constructor
    · nlinarith
    · nlinarith

theorem Order.fireTime_eq (o : Order) (i : Nat) :
    o.fireTime i = ((i : ℚ) + 1) * o.trade_delay_step := by
  unfold Order.fireTime
  ring

/-- Every scheduled trade of a built order fires within the 15-unit fill
window, strictly before the close-handler timer at 16. -/
theorem Order.fireTime_bounds (o : Order)
    (hstep : o.trade_delay_step = 15 / (o.number_of_trades : ℚ))
    (hfd : o.order_fill_delay = 15) (hn : o.number_of_trades ≠ 0)
    (i : Nat) (hi : i < o.number_of_trades) :
    o.fireTime i ≤ 15 ∧ o.fireTime i < o.close_timer_delay := by
  have hn' : (0 : ℚ) < (o.number_of_trades : ℚ) := by
    exact_mod_cast Nat.pos_of_ne_zero hn
  have hle : ((i : ℚ) + 1) ≤ (o.number_of_trades : ℚ) := by
    have := Nat.succ_le_of_lt hi
    exact_mod_cast this
  have h15 : o.fireTime i ≤ 15 := by
    rw [Order.fireTime_eq, hstep]
    calc ((i : ℚ) + 1) * (15 / (o.number_of_trades : ℚ))
        ≤ (o.number_of_trades : ℚ) * (15 / (o.number_of_trades : ℚ)) := by
          apply mul_le_mul_of_nonneg_right hle
          positivity
      _ = 15 := by field_simp
  refine ⟨h15, ?_⟩
  rw [Order.close_timer_delay, hfd]
  linarith

/-- The close-handler timer delay is not among the trade-timer delays, so
`Order.cancel` (which cancels exactly `self.trade_timers`) never suppresses
the close-handler invocation. -/
theorem Order.close_timer_survives (o : Order)
    (hstep : o.trade_delay_step = 15 / (o.number_of_trades : ℚ))
    (hfd : o.order_fill_delay = 15) (hn : o.number_of_trades ≠ 0)
    (c : Option ℚ) :
    timerSurvivesCancel o.trade_timers o.close_timer_delay c = true := by
  have hnin : o.close_timer_delay ∉ o.trade_timers := by
    unfold Order.trade_timers
    simp only [List.mem_map, List.mem_range, not_exists, not_and]
    intro i hi heq
    have := (o.fireTime_bounds hstep hfd hn i hi).2
    rw [heq] at this
    exact lt_irrefl _ this
  cases c with
  | none => rfl
  | some ct =>
    simp only [timerSurvivesCancel]
    rw [if_neg hnin]

/-- When the cancellation at time `c` has happened by time `t`, the fired
trade timers are exactly those whose delay elapsed strictly before `c`. -/
theorem Order.firedIndices_of_cancel_le (o : Order) (c t : ℚ) (hct : c ≤ t) :
    o.firedIndices (some c) t =
      (List.range o.number_of_trades).filter (fun i => decide (o.fireTime i < c)) := by
  unfold Order.firedIndices
  apply List.filter_congr
  intro i hi
  have him : o.fireTime i ∈ o.trade_timers := by
    unfold Order.trade_timers
    exact List.mem_map_of_mem _ hi
  simp only [timerSurvivesCancel]
  rw [if_pos him]
  by_cases hlt : o.fireTime i < c
  · simp [hlt, le_of_lt (lt_of_lt_of_le hlt hct)]
  · simp [hlt]

/-- Evaluation shape of `Order.build` on the success path. -/
theorem Order.build_eval (k : String) (a : ℚ) (b q ot : String)
    (ctx : List Strategy) (r1 r2 : ℚ) (strat : Strategy) (price : ℚ)
    (hh : (ctx.filter (fun st => st.symbol = b ++ "_" ++ q)).head? = some strat)
    (hp : pyIndex strat.tickerValues strat.counter = .ok price)
    (hn : (compute_fill_properties r1 r2).1 ≠ 0) :
    Order.build k a b q ot ctx true r1 r2 =
      .ok { api_key := k
            amount := a
            base_asset := b
            quote_asset := q
            order_type := ot
            status := "OPEN"
            trades := []
            symbol := b ++ "_" ++ q
            price := price
            order_fill_delay := 15
            number_of_trades := (compute_fill_properties r1 r2).1
            fill_percent := (compute_fill_properties r1 r2).2
            trade_amount := a * (compute_fill_properties r1 r2).2 /
              ((compute_fill_properties r1 r2).1 : ℚ)
            trade_delay_step := 15 / ((compute_fill_properties r1 r2).1 : ℚ) } := by
  simp only [Order.build, bind, Except.bind, hh, hp, if_true]
  rw [if_neg hn]

/-- Evaluation shape of `Order.build` when the fill plan yields zero trades:
the `trade_amount` computation divides by zero. -/
theorem Order.build_zero_eval (k : String) (a : ℚ) (b q ot : String)
    (ctx : List Strategy) (r1 r2 : ℚ) (strat : Strategy) (price : ℚ)
    (hh : (ctx.filter (fun st => st.symbol = b ++ "_" ++ q)).head? = some strat)
    (hp : pyIndex strat.tickerValues strat.counter = .ok price)
    (hn : (compute_fill_properties r1 r2).1 = 0) :
    Order.build k a b q ot ctx true r1 r2 = .error .zeroDivisionError := by
  simp only [Order.build, bind, Except.bind, hh, hp, if_true]
  rw [if_pos hn]

/-- The fill plan at the concrete draws `r1 = 1/5`, `r2 = 0`. -/
theorem compute_fill_one_one : compute_fill_properties (1/5) 0 = (1, 1) := by
  unfold compute_fill_properties
  have h5 : ((1 : ℚ)/5) * 5 = 1 := by norm_num
  rw [h5, Int.ceil_one]
  norm_num

/-- `Order.build` at the concrete fixture inputs yields `ord3`. -/
theorem build_ord3 :
    Order.build "k" 1 "BTC" "USD" "BUY" [st0] true (1/5) 0 = .ok ord3 := by
  rw [Order.build_eval "k" 1 "BTC" "USD" "BUY" [st0] (1/5) 0 st0 100 rfl rfl
    (by rw [compute_fill_one_one]; decide)]
  rw [compute_fill_one_one]
  unfold ord3
  norm_num
  rfl

/-- `Exchange._handle_order_close` never returns successfully: every
invocation raises before reaching the balance and counter mutations. -/
theorem handle_order_close_never_ok (ex : Exchange) (o : Order) (ex' : Exchange) :
    ex.handle_order_close o ≠ .ok ex' := by
  intro h
  cases hc : ex.coins with
  | none => simp [Exchange.handle_order_close, hc, bind, Except.bind] at h
  | some cs =>
    cases hh : (cs.filter (fun st => st.symbol = o.symbol)).head? with
    | none => simp [Exchange.handle_order_close, hc, hh, bind, Except.bind] at h
    | some st =>
      cases ha : ex.active_accounts with
      | none => simp [Exchange.handle_order_close, hc, hh, ha, bind, Except.bind] at h
      | some A => simp [Exchange.handle_order_close, hc, hh, ha, bind, Except.bind] at h

/-- When the attribute reads and the strategy scan succeed,
`Exchange._handle_order_close` reaches the unbound name `api_key` and raises
`NameError`. -/
theorem handle_order_close_name_error (ex : Exchange) (cs : List Strategy)
    (A : String → Option AccountData) (o : Order)
    (hc : ex.coins = some cs) (ha : ex.active_accounts = some A)
    (hst : ∃ st ∈ cs, st.symbol = o.symbol) :
    ex.handle_order_close o = .error (.nameError "api_key") := by
  obtain ⟨st, hmem, hsym⟩ := hst
  have hfil : st ∈ cs.filter (fun s => s.symbol = o.symbol) :=
    List.mem_filter.mpr ⟨hmem, by simp [hsym]⟩
  cases hh : (cs.filter (fun s => s.symbol = o.symbol)).head? with
  | none =>
    rw [List.head?_eq_none_iff] at hh
    rw [hh] at hfil
    exact absurd hfil (List.not_mem_nil st)
  | some st2 =>
    simp [Exchange.handle_order_close, hc, ha, hh, bind, Except.bind]

/-- `Strategy._increment_counter` below the last index: one step forward. -/
theorem Strategy.increment_counter_below (s : Strategy)
    (h : s.counter < (s.tickerValues.length : Int) - 1) :
    s.increment_counter = { s with counter := s.counter + 1 } := by
  unfold Strategy.increment_counter
  rw [if_pos h]

/-- `Strategy._increment_counter` at the last index of an infinite strategy:
wrap to 0. -/
theorem Strategy.increment_counter_wrap (s : Strategy)
    (h : ¬ s.counter < (s.tickerValues.length : Int) - 1)
    (heq : s.counter = (s.tickerValues.length : Int) - 1)
    (hinf : s.is_infinite = true) :
    s.increment_counter = { s with counter := 0 } := by
  unfold Strategy.increment_counter
  rw [if_neg h, if_pos ⟨heq, hinf⟩]
  rfl

/-- `Strategy._increment_counter` in the remaining case: no change. -/
theorem Strategy.increment_counter_stay (s : Strategy)
    (h : ¬ s.counter < (s.tickerValues.length : Int) - 1)
    (hn : ¬ (s.counter = (s.tickerValues.length : Int) - 1 ∧ s.is_infinite = true)) :
    s.increment_counter = s := by
  unfold Strategy.increment_counter
  rw [if_neg h, if_neg ?_]
  intro hand
  exact hn ⟨hand.1, hand.2⟩

/-! Claim theorems. -/

/-- C1: The claimed settlement (BUY credits `available[base_asset]` by the
traded total and debits `frozen[quote_asset]` by the original reserved total,
with the strategy's `buys` counter incremented) never executes: evaluated at
a concrete filled BUY order on a fully populated exchange,
`Exchange._handle_order_close` raises `NameError` on the unbound name
`api_key` before any mutation. -/
theorem c1_settlement_never_executes :
    exC1.handle_order_close ordC1 = .error (.nameError "api_key") :=
  handle_order_close_name_error exC1 [st0] acctMap1 ordC1 rfl rfl
    ⟨st0, by simp, rfl⟩

/-- C2: Every invocation of `Exchange._handle_order_close` fails before any
balance or counter mutation (it never returns a successor state), and
whenever the attribute reads and the strategy scan succeed — as they do for
every invocation the code itself schedules — the raised exception is
`NameError` on the unbound name `api_key`. -/
theorem c2_handle_order_close_raises :
    (∀ (ex : Exchange) (o : Order) (ex' : Exchange),
      ex.handle_order_close o ≠ .ok ex') ∧
    (∀ (ex : Exchange) (cs : List Strategy) (A : String → Option AccountData)
      (o : Order), ex.coins = some cs → ex.active_accounts = some A →
      (∃ st ∈ cs, st.symbol = o.symbol) →
      ex.handle_order_close o = .error (.nameError "api_key")) :=
  ⟨handle_order_close_never_ok,
   fun ex cs A o hc ha hst => handle_order_close_name_error ex cs A o hc ha hst⟩

/-- Witness for C2 at a concrete exchange and open order. -/
theorem c2_witness :
    exC1.handle_order_close ord3 = .error (.nameError "api_key") :=
  c2_handle_order_close_raises.2 exC1 [st0] acctMap1 ord3 rfl rfl
    ⟨st0, by simp, rfl⟩

/-- C4: For a non-infinite triggered strategy whose cursor sits at the last
ticker index, one `check_conditions` call sets the status to `SUCCEEDED`
when both counters match the stop trigger and to `FAILED` otherwise, and
clears `is_triggered` in both cases. -/
theorem c4_check_conditions_last_index (s : Strategy)
    (h1 : s.is_infinite = false) (h2 : s.is_triggered = true)
    (h3 : s.counter = (s.tickerValues.length : Int) - 1) :
    (s.check_conditions).status =
      (if s.buys = s.stop_trigger.buys ∧ s.sells = s.stop_trigger.sells
       then "SUCCEEDED" else "FAILED") ∧
    (s.check_conditions).is_triggered = false := by
  have hcc : s.check_conditions = s.check_success := by
    simp [Strategy.check_conditions, h1, h2, h3]
  rw [hcc]
  by_cases hc : s.buys = s.stop_trigger.buys ∧ s.sells = s.stop_trigger.sells
  · simp [Strategy.check_success, hc]
  · simp [Strategy.check_success, hc]

/-- Witness for C4 at a concrete matching strategy. -/
theorem c4_witness :
    (st4.check_conditions).status =
      (if st4.buys = st4.stop_trigger.buys ∧ st4.sells = st4.stop_trigger.sells
       then "SUCCEEDED" else "FAILED") ∧
    (st4.check_conditions).is_triggered = false :=
  c4_check_conditions_last_index st4 rfl rfl (by decide)

/-- C9 (amended): the cursor invariant `0 ≤ counter < len(values)` is indeed
preserved by `Strategy._increment_counter` and `Strategy.reset_counter`
(which advance by exactly one step below the last index, wrap to 0 at the
last index of an infinite strategy, and otherwise leave the cursor alone) —
but not by `Ticker._increment_counter` (see the counterexample). -/
theorem c9_strategy_cursor_invariant (s : Strategy)
    (h1 : 0 ≤ s.counter) (h2 : s.counter < (s.tickerValues.length : Int)) :
    (0 ≤ (s.increment_counter).counter ∧
      (s.increment_counter).counter < (s.tickerValues.length : Int)) ∧
    ((s.reset_counter).counter = 0 ∧ 0 < (s.tickerValues.length : Int)) ∧
    (s.counter < (s.tickerValues.length : Int) - 1 →
      (s.increment_counter).counter = s.counter + 1) ∧
    (s.counter = (s.tickerValues.length : Int) - 1 → s.is_infinite = true →
      (s.increment_counter).counter = 0) ∧
    (s.counter = (s.tickerValues.length : Int) - 1 → s.is_infinite = false →
      s.increment_counter = s) := by
  by_cases hlt : s.counter < (s.tickerValues.length : Int) - 1
  · rw [Strategy.increment_counter_below s hlt]
    exact ⟨⟨by simp; omega, by simp; omega⟩, ⟨rfl, by omega⟩, fun _ => by simp,
      fun heq _ => absurd heq (by omega), fun heq _ => absurd heq (by omega)⟩
  · by_cases heq : s.counter = (s.tickerValues.length : Int) - 1
    · by_cases hinf : s.is_infinite = true
      · rw [Strategy.increment_counter_wrap s hlt heq hinf]
        exact ⟨⟨by simp, by simp; omega⟩, ⟨rfl, by omega⟩, fun h => absurd h hlt,
          fun _ _ => by simp,
          fun _ hfalse => absurd (hinf.symm.trans hfalse) (by decide)⟩
      · rw [Strategy.increment_counter_stay s hlt (fun hand => hinf hand.2)]
        exact ⟨⟨h1, h2⟩, ⟨rfl, by omega⟩, fun h => absurd h hlt,
          fun _ htrue => absurd htrue hinf, fun _ _ => rfl⟩
    · exact absurd (by omega : s.counter = (s.tickerValues.length : Int) - 1) heq

/-- Witness for C9's amended statement at a concrete strategy state. -/
theorem c9_witness :
    (0 ≤ (st0.increment_counter).counter ∧
      (st0.increment_counter).counter < (st0.tickerValues.length : Int)) ∧
    ((st0.reset_counter).counter = 0 ∧ 0 < (st0.tickerValues.length : Int)) ∧
    (st0.counter < (st0.tickerValues.length : Int) - 1 →
      (st0.increment_counter).counter = st0.counter + 1) ∧
    (st0.counter = (st0.tickerValues.length : Int) - 1 → st0.is_infinite = true →
      (st0.increment_counter).counter = 0) ∧
    (st0.counter = (st0.tickerValues.length : Int) - 1 → st0.is_infinite = false →
      st0.increment_counter = st0) :=
  c9_strategy_cursor_invariant st0 (by decide) (by decide)

/-- C9 counterexample: one pass of `Ticker._increment_counter` breaks the
invariant `0 ≤ counter < len(values)` — starting from a valid state of a
one-point ticker the counter moves to 1, which is not below `len(values)`
(the in-loop reset can never help: the source references `reset_counter`
without calling it). -/
theorem c9_ticker_counterexample :
    (0 ≤ tk9.counter ∧ tk9.counter < (tk9.values.length : Int)) ∧
    (tk9.increment_step).counter = 1 ∧
    ¬ ((tk9.increment_step).counter < ((tk9.increment_step).values.length : Int)) := by
  decide

/-- C10: On a freshly constructed `Exchange`, `accept_account` raises
`AttributeError` (reading the never-assigned `active_accounts`), and
`ingest_strategy` (for any well-formed symbol) and `create_order` raise
`AttributeError` as well, so no account ledger is ever created. -/
theorem c10_fresh_exchange_raises :
    (∀ api_key : String, Exchange.freshInit.accept_account api_key =
      .error (.attributeError "active_accounts")) ∧
    (∀ (st : Strategy) (b q : String), pySplit st.symbol '_' = [b, q] →
      Exchange.freshInit.ingest_strategy st = .error (.attributeError "name")) ∧
    (∀ (api_key b q ot : String) (a r1 r2 : ℚ),
      Exchange.freshInit.create_order api_key b q a ot r1 r2 =
        .error (.attributeError "coins")) := by
  refine ⟨fun k => rfl, ?_, fun k b q ot a r1 r2 => rfl⟩
  intro st b q hsp
  simp [Exchange.ingest_strategy, pySplitUnpack2, hsp, bind, Except.bind,
    Exchange.freshInit]

/-- Witness for C10 at a concrete strategy with a well-formed symbol. -/
theorem c10_witness :
    Exchange.freshInit.ingest_strategy st0 = .error (.attributeError "name") :=
  c10_fresh_exchange_raises.2.1 st0 "BTC" "USD" (by decide)

/-- C3 (amended): every trade timer of a built order fires strictly before
the close-handler timer (scheduled at `order_fill_delay + 1 = 16`); that
timer is never cancelled by `Order.cancel`, which cancels only
`self.trade_timers`; a trade fire only appends the trade and updates the
order status (it performs no settlement); and no close-handler invocation
ever yields a successor exchange state. -/
theorem c3_settlement_timer (k b q ot : String) (a : ℚ) (ctx : List Strategy)
    (r1 r2 : ℚ) (o : Order)
    (hb : Order.build k a b q ot ctx true r1 r2 = .ok o) :
    (∀ i < o.number_of_trades, o.fireTime i < o.close_timer_delay) ∧
    (∀ c : Option ℚ, timerSurvivesCancel o.trade_timers o.close_timer_delay c = true) ∧
    (∀ (o2 : Order) (tr : Trade), ∃ st,
      o2.handle_trade tr = { o2 with trades := o2.trades ++ [tr], status := st }) ∧
    (∀ (ex ex' : Exchange), ex.handle_order_close o ≠ .ok ex') := by
  obtain ⟨-, -, -, -, hne, -, -, hstep, hfd⟩ := Order.build_fields hb
  refine ⟨?_, ?_, ?_, ?_⟩
  · intro i hi
    exact (Order.fireTime_bounds o hstep hfd hne i hi).2
  · intro c
    exact Order.close_timer_survives o hstep hfd hne c
  · intro o2 tr
    exact ⟨_, Order.handle_trade_eq o2 tr⟩
  · intro ex ex'
    exact handle_order_close_never_ok ex o ex'

/-- Witness for C3's amended statement at the concrete fixture order. -/
theorem c3_witness :
    (∀ i < ord3.number_of_trades, ord3.fireTime i < ord3.close_timer_delay) ∧
    (∀ c : Option ℚ,
      timerSurvivesCancel ord3.trade_timers ord3.close_timer_delay c = true) ∧
    (∀ (o2 : Order) (tr : Trade), ∃ st,
      o2.handle_trade tr = { o2 with trades := o2.trades ++ [tr], status := st }) ∧
    (∀ (ex ex' : Exchange), ex.handle_order_close ord3 ≠ .ok ex') :=
  c3_settlement_timer "k" "BTC" "USD" "BUY" 1 [st0] (1/5) 0 ord3 build_ord3

/-- C3 counterexample: an order cancelled at time 0, before any of its
trades fired, still has the close-settlement handler invocation pending —
the handler's timer survives the cancellation and is due at time 16, at
which point the order's status is `CANCELED` and its trade list incomplete.
This refutes the claim that settlement work never happens for an order
cancelled before all its trades fired. -/
theorem c3_counterexample :
    Order.build "k" 1 "BTC" "USD" "BUY" [st0] true (1/5) 0 = .ok ord3 ∧
    (ord3.stateAt (some 0) 16).status = "CANCELED" ∧
    (ord3.stateAt (some 0) 16).trades = [] ∧
    timerSurvivesCancel ord3.trade_timers ord3.close_timer_delay (some 0) = true ∧
    ord3.close_timer_delay ≤ 16 := by
  have hfi : ord3.firedIndices (some 0) 16 = [] := by
    rw [Order.firedIndices_of_cancel_le ord3 0 16 (by norm_num)]
    norm_num [Order.fireTime, ord3]
  refine ⟨build_ord3, Order.stateAt_status_cancelled ord3 0 16 (by norm_num), ?_, ?_, ?_⟩
  · rw [Order.stateAt_trades, hfi]
    simp [ord3]
  · exact Order.close_timer_survives ord3 (by norm_num [ord3]) (by norm_num [ord3])
      (by norm_num [ord3]) (some 0)
  · norm_num [ord3, Order.close_timer_delay]

/-- C5 (amended): for oracle draws `r1 ∈ (0,1)` and `r2 ∈ [0,1)` the fill
plan of a built order has one to five trades, a fill percentage in
`(0.97, 1]`, the stated trade amount, and trade `i` scheduled at delay
`(i+1) * (order_fill_delay / number_of_trades)`; the draw `r1 = 0`
(in the claim's own range `[0,1)`) is excluded — see the counterexample. -/
theorem c5_fill_plan (k b q ot : String) (a : ℚ) (ctx : List Strategy)
    (r1 r2 : ℚ) (o : Order) (h1 : 0 < r1) (h2 : r1 < 1) (h3 : 0 ≤ r2) (h4 : r2 < 1)
    (hb : Order.build k a b q ot ctx true r1 r2 = .ok o) :
    (1 ≤ o.number_of_trades ∧ o.number_of_trades ≤ 5) ∧
    (97 / 100 < o.fill_percent ∧ o.fill_percent ≤ 1) ∧
    o.trade_amount = a * o.fill_percent / (o.number_of_trades : ℚ) ∧
    (∀ i < o.number_of_trades,
      o.fireTime i = ((i : ℚ) + 1) * (o.order_fill_delay / (o.number_of_trades : ℚ))) := by
  obtain ⟨-, -, -, hnum, -, hfp, hta, hstep, hfd⟩ := Order.build_fields hb
  have hbd := compute_fill_properties_bounds r1 r2 h1 (le_of_lt h2) h3 h4
  have e1 : (compute_fill_properties r1 r2).1 = (⌈r1 * 5⌉).toNat := rfl
  have e2 : (compute_fill_properties r1 r2).2 = 1 - r2 * (3 / 100) := rfl
  rw [e1] at hbd
  rw [e2] at hbd
  refine ⟨?_, ?_, hta, ?_⟩
  · rw [hnum]
    exact hbd.1
  · rw [hfp]
    exact hbd.2
  · intro i hi
    rw [Order.fireTime_eq, hstep, hfd]

/-- Witness for C5's amended statement at the concrete fixture order. -/
theorem c5_witness :
    (1 ≤ ord3.number_of_trades ∧ ord3.number_of_trades ≤ 5) ∧
    (97 / 100 < ord3.fill_percent ∧ ord3.fill_percent ≤ 1) ∧
    ord3.trade_amount = 1 * ord3.fill_percent / (ord3.number_of_trades : ℚ) ∧
    (∀ i < ord3.number_of_trades,
      ord3.fireTime i =
        ((i : ℚ) + 1) * (ord3.order_fill_delay / (ord3.number_of_trades : ℚ))) :=
  c5_fill_plan "k" "BTC" "USD" "BUY" 1 [st0] (1/5) 0 ord3 (by norm_num)
    (by norm_num) (by norm_num) (by norm_num) build_ord3

/-- C5 counterexample: the claim quantifies over every `r ∈ [0,1)` returned
by `random()`, but at `r = 0` the fill plan computes
`number_of_trades = ceil(0 * 5) = 0`, not a value between 1 and 5, and order
construction then divides by zero when computing `trade_amount`. -/
theorem c5_counterexample :
    ((0 : ℚ) ≤ 0 ∧ (0 : ℚ) < 1) ∧
    (compute_fill_properties 0 0).1 = 0 ∧
    ¬ 1 ≤ (compute_fill_properties 0 0).1 ∧
    Order.build "k" 1 "BTC" "USD" "BUY" [st0] true 0 0 = .error .zeroDivisionError := by
  have hc : (compute_fill_properties 0 0).1 = 0 := by
    unfold compute_fill_properties
    norm_num
  refine ⟨⟨le_refl 0, by norm_num⟩, hc, ?_, ?_⟩
  · rw [hc]
    decide
  · exact Order.build_zero_eval "k" 1 "BTC" "USD" "BUY" [st0] 0 0 st0 100 rfl rfl hc

/-- C6: at every point of a built order's lifetime the recorded trade
amounts sum to at most `amount * fill_percent`, with equality once the
status is `FILLED` (hypotheses: `amount ≥ 0` per the spec's order
constraints, and `r2` in the range of `random()`). -/
theorem c6_trade_sum_invariant (k b q ot : String) (a : ℚ) (ctx : List Strategy)
    (r1 r2 : ℚ) (o : Order) (ha : 0 ≤ a) (h4 : r2 < 1)
    (hb : Order.build k a b q ot ctx true r1 r2 = .ok o)
    (c : Option ℚ) (t : ℚ) :
    ((o.stateAt c t).trades.map (fun tr => tr.amount)).sum ≤
      o.amount * o.fill_percent ∧
    ((o.stateAt c t).status = "FILLED" →
      ((o.stateAt c t).trades.map (fun tr => tr.amount)).sum =
        o.amount * o.fill_percent) := by
  obtain ⟨h0, hs, hamt, -, hne, hfp, hta, -, -⟩ := Order.build_fields hb
  rw [← hamt] at hta
  have hmn : (o.firedIndices c t).length ≤ o.number_of_trades :=
    Order.firedIndices_length_le o c t
  have htr : (o.stateAt c t).trades =
      List.replicate (o.firedIndices c t).length o.scheduledTrade := by
    rw [Order.stateAt_trades, h0, List.nil_append]
  have hsa : o.scheduledTrade.amount = o.trade_amount := rfl
  have hsum : ((o.stateAt c t).trades.map (fun tr => tr.amount)).sum =
      ((o.firedIndices c t).length : ℚ) * o.trade_amount := by
    rw [htr, List.map_replicate, hsa, List.sum_replicate, nsmul_eq_mul]
  have hnq : (0 : ℚ) < (o.number_of_trades : ℚ) := by
    exact_mod_cast Nat.pos_of_ne_zero hne
  have hfpos : 0 < o.fill_percent := by
    rw [hfp]
    nlinarith
  have hca : 0 ≤ o.amount := by
    rw [hamt]
    exact ha
  constructor
  · rw [hsum, hta]
    calc ((o.firedIndices c t).length : ℚ) *
        (o.amount * o.fill_percent / (o.number_of_trades : ℚ))
        ≤ (o.number_of_trades : ℚ) *
          (o.amount * o.fill_percent / (o.number_of_trades : ℚ)) := by
          apply mul_le_mul_of_nonneg_right (by exact_mod_cast hmn)
          exact div_nonneg (mul_nonneg hca (le_of_lt hfpos)) (le_of_lt hnq)
      _ = o.amount * o.fill_percent := by
          field_simp
  · intro hf
    have hmeq : (o.firedIndices c t).length = o.number_of_trades :=
      Order.stateAt_status_of_filled o c t h0 hs hne hf
    rw [hsum, hta, hmeq]
    field_simp

/-- Witness for C6 at the concrete fixture order, observed at the moment its
single trade has fired (status `FILLED`). -/
theorem c6_witness :
    ((ord3.stateAt none 15).trades.map (fun tr => tr.amount)).sum ≤
      ord3.amount * ord3.fill_percent ∧
    ((ord3.stateAt none 15).status = "FILLED" →
      ((ord3.stateAt none 15).trades.map (fun tr => tr.amount)).sum =
        ord3.amount * ord3.fill_percent) :=
  c6_trade_sum_invariant "k" "BTC" "USD" "BUY" 1 [st0] (1/5) 0 ord3
    (by norm_num) (by norm_num) build_ord3 none 15

/-- C7: cancelling a built order at time `c`, after exactly `N` of its
scheduled trades have fired (those whose delay elapsed strictly before `c`),
leaves the order `CANCELED` with exactly those `N` trades recorded at every
later time — none of the remaining trades ever fires; a trade whose delay
elapsed before the cancellation ("already dispatched") is retained. -/
theorem c7_cancel_freezes_trades (k b q ot : String) (a : ℚ) (ctx : List Strategy)
    (r1 r2 : ℚ) (o : Order)
    (hb : Order.build k a b q ot ctx true r1 r2 = .ok o)
    (c : ℚ) (N : Nat)
    (hN : ((List.range o.number_of_trades).filter
      (fun i => decide (o.fireTime i < c))).length = N)
    (t : ℚ) (ht : c ≤ t) :
    (o.stateAt (some c) t).status = "CANCELED" ∧
    (o.stateAt (some c) t).trades = List.replicate N o.scheduledTrade ∧
    (o.stateAt (some c) t).trades.length = N := by
  obtain ⟨h0, -, -, -, -, -, -, -, -⟩ := Order.build_fields hb
  have hfi := Order.firedIndices_of_cancel_le o c t ht
  have htr : (o.stateAt (some c) t).trades = List.replicate N o.scheduledTrade := by
    rw [Order.stateAt_trades, h0, List.nil_append, hfi, hN]
  refine ⟨Order.stateAt_status_cancelled o c t ht, htr, ?_⟩
  rw [htr, List.length_replicate]

/-- Witness for C7: the fixture order cancelled at time 0 (no trade fired)
keeps zero trades forever and reports `CANCELED` at time 16. -/
theorem c7_witness :
    (ord3.stateAt (some 0) 16).status = "CANCELED" ∧
    (ord3.stateAt (some 0) 16).trades = List.replicate 0 ord3.scheduledTrade ∧
    (ord3.stateAt (some 0) 16).trades.length = 0 :=
  c7_cancel_freezes_trades "k" "BTC" "USD" "BUY" 1 [st0] (1/5) 0 ord3 build_ord3
    0 0 (by norm_num [Order.fireTime, ord3]) 16 (by norm_num)

/-- C8: on a populated exchange with a registered account and a matching
strategy, `create_order` synchronously mutates the account balance — BUY
moves `price * amount` from `available[quote_asset]` to
`frozen[quote_asset]`, SELL moves `amount` from `available[base_asset]` to
`frozen[base_asset]` — with no hypothesis on the available balance, so the
mutation applies even when it drives `available` below zero (see the
witness). -/
theorem c8_create_order_mutates_balances (ex : Exchange) (cs : List Strategy)
    (A : String → Option AccountData) (acct : AccountData)
    (api_key b q ot : String) (a r1 r2 : ℚ) (o : Order)
    (hc : ex.coins = some cs) (ha : ex.active_accounts = some A)
    (hk : A api_key = some acct)
    (hb : Order.build api_key a b q ot cs true r1 r2 = .ok o) :
    (ot = "BUY" →
      ex.create_order api_key b q a ot r1 r2 = .ok
        { ex with
          orders := ex.orders ++ [o]
          active_accounts := some (updateAcct A api_key ⟨{
            available := updateFn acct.balance.available q
              (acct.balance.available q - o.price * o.amount)
            frozen := updateFn acct.balance.frozen q
              (acct.balance.frozen q + o.price * o.amount) }⟩) }) ∧
    (ot = "SELL" →
      ex.create_order api_key b q a ot r1 r2 = .ok
        { ex with
          orders := ex.orders ++ [o]
          active_accounts := some (updateAcct A api_key ⟨{
            available := updateFn acct.balance.available b
              (acct.balance.available b - o.amount)
            frozen := updateFn acct.balance.frozen b
              (acct.balance.frozen b + o.amount) }⟩) }) := by
  constructor <;> intro hot <;> subst hot <;>
    simp [Exchange.create_order, hc, hb, ha, hk, bind, Except.bind]

/-- Witness for C8: a BUY order on an account whose `available[USD]` is 0 —
the mutation still applies and leaves the available balance negative. -/
theorem c8_witness :
    (exC1.create_order "k" "BTC" "USD" 1 "BUY" (1/5) 0 = .ok
      { exC1 with
        orders := exC1.orders ++ [ord3]
        active_accounts := some (updateAcct acctMap1 "k" ⟨{
          available := updateFn acct1.balance.available "USD"
            (acct1.balance.available "USD" - ord3.price * ord3.amount)
          frozen := updateFn acct1.balance.frozen "USD"
            (acct1.balance.frozen "USD" + ord3.price * ord3.amount) }⟩) }) ∧
    updateFn acct1.balance.available "USD"
      (acct1.balance.available "USD" - ord3.price * ord3.amount) "USD" < 0 :=
  ⟨(c8_create_order_mutates_balances exC1 [st0] acctMap1 acct1 "k" "BTC" "USD"
      "BUY" 1 (1/5) 0 ord3 rfl rfl rfl build_ord3).1 rfl,
   by norm_num [updateFn, acct1, ord3]⟩

end CryptoMock
